import Mathlib

/-!
Verification of the `Editor` class from `src/renderer/editor/editor.ts` of the
Kando pie-menu project.

The editor is a thin view controller: its state is the container's CSS class
list, the sidebar's visibility, and an optional `menuSettings` object fetched
from the host process.  Its operations (`show`, `hide`, `enterEditMode`,
`leaveEditMode`, `isInEditMode`) toggle classes, exchange the settings object
with the host process, and emit events.  We embed the state as a structure and
every operation as a pure function returning the successor state together with
the list of externally observable effects it performs (host-process calls,
calls into the child components, emitted events).

The asynchronous continuation in `enterEditMode` (the `.then` of the single
`Promise.all`) is embedded twice.  `enterEditMode` is the composite in which
the continuation resolves within the same call, with the host's responses
passed as an argument; the per-call properties below are stated against it.
`enterEditModeSync` and `resolveFetch` split the operation into its
synchronous half and the continuation, and `AsyncReachable` describes the
configurations of the running program when the continuation may execute in a
later microtask — in particular after edit mode has already been left again,
a timing in which fetched settings are stored but never sent back.
`enterEditMode_state_eq_sync_then_resolve` checks that the composite is the
split operation with the continuation run immediately.  The node type stored
inside menus, and the `toINode` conversion imported from `editor-node.ts`,
are opaque to this file, so they are a type parameter `α` and a function
parameter `toINode : α → α`.
-/

namespace Kando

/-- `DOMTokenList.add`: appends the token only if it is not already present
(a `DOMTokenList` holds no duplicates). -/
def classListAdd (classes : List String) (c : String) : List String :=
  if classes.contains c then classes else classes ++ [c]

/-- `DOMTokenList.remove`: removes every occurrence of the token. -/
def classListRemove (classes : List String) (c : String) : List String :=
  classes.filter (fun x => x ≠ c)

/-- One menu of the settings object; `nodes` is its root node
(`IEditorNode` / `INode` in the source, opaque here). -/
structure IMenu (α : Type) where
  nodes : α
deriving Repr, DecidableEq

/-- The menu-configuration object exchanged with the host process
(`IMenuSettings` in `src/common`). -/
structure IMenuSettings (α : Type) where
  menus : List (IMenu α)
deriving Repr, DecidableEq

/-- The two fetching host calls made by `enterEditMode`. -/
inductive HostFetch
  | get
  | getCurrentMenu
deriving Repr, DecidableEq

/-- Externally observable effects of an editor operation, in program order. -/
inductive Effect (α : Type)
  /-- `Promise.all` over a list of host-process fetches; the only point where
  asynchronous results are combined. -/
  | awaitAll (calls : List HostFetch)
  /-- `this.preview.setMenu(...)`; the argument is `settings.menus[currentMenu]`,
  which is `none` when the index is out of range. -/
  | previewSetMenu (menu : Option (IMenu α))
  /-- `this.toolbar.setMenus(menus, currentMenu)`. -/
  | toolbarSetMenus (menus : List (IMenu α)) (current : Nat)
  /-- `window.api.menuSettings.set(settings)`: the persistence call. -/
  | hostSet (settings : IMenuSettings α)
  /-- `this.emit('enter-edit-mode')`. -/
  | emitEnterEditMode
  /-- `this.emit('leave-edit-mode')`. -/
  | emitLeaveEditMode
deriving Repr, DecidableEq

/-- The mutable state of an `Editor` instance. -/
structure EditorState (α : Type) where
  /-- The container's CSS class list (`this.container.classList`). -/
  classes : List String
  /-- The sidebar's visibility (`this.sidebar.setVisibility`). -/
  sidebarVisible : Bool
  /-- `this.menuSettings`: `none` encodes the TypeScript `null`. -/
  menuSettings : Option (IMenuSettings α)
deriving Repr, DecidableEq

variable {α : Type}

/-- `Editor.isInEditMode`: `this.container.classList.contains('edit-mode')`. -/
def isInEditMode (s : EditorState α) : Bool :=
  s.classes.contains "edit-mode"

/-- `Editor.show`: `this.container.classList.add('visible')`. -/
def show' (s : EditorState α) : EditorState α × List (Effect α) :=
  ({ s with classes := classListAdd s.classes "visible" }, [])

/-- `Editor.enterEditMode`.  `resp` is the pair of host responses that the
`Promise.all` resolves with: the settings object from
`window.api.menuSettings.get()` and the current-menu index from
`window.api.menuSettings.getCurrentMenu()`. -/
def enterEditMode (resp : IMenuSettings α × Nat) (s : EditorState α) :
    EditorState α × List (Effect α) :=
  if isInEditMode s then (s, [])
  else
    let settings := resp.1
    let currentMenu := resp.2
    ({ classes := classListAdd s.classes "edit-mode"
       sidebarVisible := false
       menuSettings := some settings },
     [Effect.awaitAll [HostFetch.get, HostFetch.getCurrentMenu],
      Effect.previewSetMenu settings.menus[currentMenu]?,
      Effect.toolbarSetMenus settings.menus currentMenu,
      Effect.emitEnterEditMode])

/-- The conversion applied before sending settings back:
`menu.nodes = toINode(menu.nodes)` for each menu in `settings.menus`. -/
def convertMenus (toINode : α → α) (settings : IMenuSettings α) : IMenuSettings α :=
  { menus := settings.menus.map (fun menu => { menu with nodes := toINode menu.nodes }) }

/-- `Editor.leaveEditMode`. -/
def leaveEditMode (toINode : α → α) (s : EditorState α) :
    EditorState α × List (Effect α) :=
  if isInEditMode s then
    let classes := classListRemove s.classes "edit-mode"
    match s.menuSettings with
    | some settings =>
        ({ classes := classes
           sidebarVisible := s.sidebarVisible
           menuSettings := none },
         [Effect.hostSet (convertMenus toINode settings), Effect.emitLeaveEditMode])
    | none =>
        ({ classes := classes
           sidebarVisible := s.sidebarVisible
           menuSettings := none },
         [Effect.emitLeaveEditMode])
  else (s, [])

/-- `Editor.hide`: `classList.remove('visible')` followed by
`this.leaveEditMode()`. -/
def hide (toINode : α → α) (s : EditorState α) : EditorState α × List (Effect α) :=
  leaveEditMode toINode { s with classes := classListRemove s.classes "visible" }

/-- `this.container.classList.contains('visible')`. -/
def isVisible (s : EditorState α) : Bool :=
  s.classes.contains "visible"

/-- The child components whose containers the constructor appends to the
parent container. -/
inductive EditorChild
  | background
  | preview
  | properties
  | sidebar
  | toolbar
deriving Repr, DecidableEq

/-- The sequence of `this.container.appendChild(... .getContainer())` calls
made by the `Editor` constructor, in program order. -/
def constructorChildren : List EditorChild :=
  [EditorChild.background, EditorChild.preview, EditorChild.properties,
   EditorChild.sidebar, EditorChild.toolbar]

/-- Recognizes the persistence effect `window.api.menuSettings.set`. -/
def isHostSet : Effect α → Bool
  | Effect.hostSet _ => true
  | _ => false

/-- Recognizes the `Promise.all` coordination effect. -/
def isAwait : Effect α → Bool
  | Effect.awaitAll _ => true
  | _ => false

/-- Recognizes the `'enter-edit-mode'` event emission. -/
def isEmitEnter : Effect α → Bool
  | Effect.emitEnterEditMode => true
  | _ => false

/-- Recognizes the `'leave-edit-mode'` event emission. -/
def isEmitLeave : Effect α → Bool
  | Effect.emitLeaveEditMode => true
  | _ => false

/-- The synchronous half of `Editor.enterEditMode`: the guard, the class
toggle, hiding the sidebar, initiating the `Promise.all` fetch, and emitting
`'enter-edit-mode'`.  `menuSettings` is untouched here: the assignment
happens only when the continuation runs. -/
def enterEditModeSync (s : EditorState α) : EditorState α × List (Effect α) :=
  if isInEditMode s then (s, [])
  else
    ({ classes := classListAdd s.classes "edit-mode"
       sidebarVisible := false
       menuSettings := s.menuSettings },
     [Effect.awaitAll [HostFetch.get, HostFetch.getCurrentMenu],
      Effect.emitEnterEditMode])

/-- The `.then` continuation of the `Promise.all` in `Editor.enterEditMode`:
it stores the fetched settings and passes them to the preview and the
toolbar.  In the running program it executes in a later microtask, possibly
after edit mode has already been left again. -/
def resolveFetch (resp : IMenuSettings α × Nat) (s : EditorState α) :
    EditorState α × List (Effect α) :=
  ({ s with menuSettings := some resp.1 },
   [Effect.previewSetMenu resp.1.menus[resp.2]?,
    Effect.toolbarSetMenus resp.1.menus resp.2])

/-- A configuration of the running program: the editor state, the number of
`Promise.all` continuations that have been initiated but have not run yet,
and the cumulative trace of all effects performed so far. -/
structure AsyncState (α : Type) where
  editor : EditorState α
  pending : Nat
  log : List (Effect α)
deriving Repr, DecidableEq

/-- Configurations reachable from a freshly constructed editor (the
constructor sets `menuSettings` to `null`; the container's class list and
the sidebar's initial visibility come from the environment) by the public
operations, with the fetch continuation of each `enterEditMode` call
running as a separate step (`doResolve`) at any later point, with an
arbitrary host response. -/
inductive AsyncReachable (toINode : α → α) : AsyncState α → Prop
  | init (classes : List String) (sidebarVisible : Bool) :
      AsyncReachable toINode ⟨⟨classes, sidebarVisible, none⟩, 0, []⟩
  | doShow {s : EditorState α} {p : Nat} {log : List (Effect α)} :
      AsyncReachable toINode ⟨s, p, log⟩ →
      AsyncReachable toINode ⟨(show' s).1, p, log ++ (show' s).2⟩
  | doHide {s : EditorState α} {p : Nat} {log : List (Effect α)} :
      AsyncReachable toINode ⟨s, p, log⟩ →
      AsyncReachable toINode ⟨(hide toINode s).1, p, log ++ (hide toINode s).2⟩
  | doEnter {s : EditorState α} {p : Nat} {log : List (Effect α)} :
      AsyncReachable toINode ⟨s, p, log⟩ →
      AsyncReachable toINode
        ⟨(enterEditModeSync s).1, if isInEditMode s then p else p + 1,
         log ++ (enterEditModeSync s).2⟩
  | doLeave {s : EditorState α} {p : Nat} {log : List (Effect α)} :
      AsyncReachable toINode ⟨s, p, log⟩ →
      AsyncReachable toINode ⟨(leaveEditMode toINode s).1, p, log ++ (leaveEditMode toINode s).2⟩
  | doResolve {s : EditorState α} {p : Nat} {log : List (Effect α)}
      (resp : IMenuSettings α × Nat) :
      AsyncReachable toINode ⟨s, p + 1, log⟩ →
      AsyncReachable toINode ⟨(resolveFetch resp s).1, p, log ++ (resolveFetch resp s).2⟩

/-! ### Class-list lemmas -/

theorem contains_classListAdd_self (l : List String) (c : String) :
    (classListAdd l c).contains c = true := by
  unfold classListAdd
  split
  · assumption
  · simp

theorem contains_classListAdd_of (l : List String) (c c' : String)
    (h : l.contains c = true) : (classListAdd l c').contains c = true := by
  unfold classListAdd
  split
  · exact h
  · simp_all

theorem contains_classListRemove_self (l : List String) (c : String) :
    (classListRemove l c).contains c = false := by
  simp [classListRemove]

theorem contains_classListRemove_ne (l : List String) {c c' : String} (h : c ≠ c') :
    (classListRemove l c').contains c = l.contains c := by
  simp only [classListRemove, List.contains, List.elem_eq_mem, List.mem_filter,
    decide_eq_true_eq, ne_eq]
  by_cases hm : c ∈ l <;> simp [hm, h]

theorem classListRemove_of_not_contains {l : List String} {c : String}
    (h : l.contains c = false) : classListRemove l c = l := by
  rw [classListRemove, List.filter_eq_self]
  intro a ha
  simp only [List.contains, List.elem_eq_mem, decide_eq_false_iff_not] at h
  simp only [ne_eq, decide_eq_true_eq]
  exact fun hac => h (hac ▸ ha)

/-! ### Operation characterization lemmas -/

theorem leaveEditMode_of_not_edit (f : α → α) (s : EditorState α)
    (h : isInEditMode s = false) : leaveEditMode f s = (s, []) := by
  simp [leaveEditMode, h]

theorem leaveEditMode_classes (f : α → α) (s : EditorState α) :
    (leaveEditMode f s).1.classes =
      if isInEditMode s then classListRemove s.classes "edit-mode" else s.classes := by
  unfold leaveEditMode
  split
  · split <;> simp_all
  · simp_all

theorem leaveEditMode_menuSettings (f : α → α) (s : EditorState α) :
    (leaveEditMode f s).1.menuSettings =
      if isInEditMode s then none else s.menuSettings := by
  unfold leaveEditMode
  split
  · split <;> simp_all
  · simp_all

theorem isInEditMode_leaveEditMode (f : α → α) (s : EditorState α) :
    isInEditMode (leaveEditMode f s).1 = false := by
  unfold isInEditMode
  rw [leaveEditMode_classes]
  split
  · exact contains_classListRemove_self _ _
  · simp_all [isInEditMode]

theorem isInEditMode_hide (f : α → α) (s : EditorState α) :
    isInEditMode (hide f s).1 = false :=
  isInEditMode_leaveEditMode f _

theorem isInEditMode_enterEditMode (resp : IMenuSettings α × Nat) (s : EditorState α) :
    isInEditMode (enterEditMode resp s).1 = true := by
  unfold enterEditMode
  split
  · assumption
  · exact contains_classListAdd_self _ _

/-- Removing `'visible'` does not change edit-mode membership. -/
theorem isInEditMode_remove_visible (s : EditorState α) :
    isInEditMode { s with classes := classListRemove s.classes "visible" } =
      isInEditMode s := by
  unfold isInEditMode
  exact contains_classListRemove_ne _ (by decide)

/-! ### Further characterization lemmas -/

theorem classListAdd_of_contains {l : List String} {c : String}
    (h : l.contains c = true) : classListAdd l c = l := by
  unfold classListAdd
  rw [h]
  simp

theorem classListAdd_idem (l : List String) (c : String) :
    classListAdd (classListAdd l c) c = classListAdd l c :=
  classListAdd_of_contains (contains_classListAdd_self l c)

theorem enterEditMode_eq_of_not_edit (resp : IMenuSettings α × Nat) (s : EditorState α)
    (h : isInEditMode s = false) :
    enterEditMode resp s =
      ({ classes := classListAdd s.classes "edit-mode"
         sidebarVisible := false
         menuSettings := some resp.1 },
       [Effect.awaitAll [HostFetch.get, HostFetch.getCurrentMenu],
        Effect.previewSetMenu resp.1.menus[resp.2]?,
        Effect.toolbarSetMenus resp.1.menus resp.2,
        Effect.emitEnterEditMode]) := by
  simp [enterEditMode, h]

theorem enterEditMode_eq_of_edit (resp : IMenuSettings α × Nat) (s : EditorState α)
    (h : isInEditMode s = true) : enterEditMode resp s = (s, []) := by
  simp [enterEditMode, h]

theorem leaveEditMode_eq_of_edit_some (f : α → α) (s : EditorState α)
    (ms : IMenuSettings α) (h1 : isInEditMode s = true) (h2 : s.menuSettings = some ms) :
    leaveEditMode f s =
      ({ classes := classListRemove s.classes "edit-mode"
         sidebarVisible := s.sidebarVisible
         menuSettings := none },
       [Effect.hostSet (convertMenus f ms), Effect.emitLeaveEditMode]) := by
  simp [leaveEditMode, h1, h2]

theorem leaveEditMode_eq_of_edit_none (f : α → α) (s : EditorState α)
    (h1 : isInEditMode s = true) (h2 : s.menuSettings = none) :
    leaveEditMode f s =
      ({ classes := classListRemove s.classes "edit-mode"
         sidebarVisible := s.sidebarVisible
         menuSettings := none },
       [Effect.emitLeaveEditMode]) := by
  simp [leaveEditMode, h1, h2]

theorem isVisible_leaveEditMode (f : α → α) (s : EditorState α) :
    isVisible (leaveEditMode f s).1 = isVisible s := by
  unfold isVisible
  rw [leaveEditMode_classes]
  split
  · exact contains_classListRemove_ne _ (by decide)
  · rfl

theorem isVisible_hide (f : α → α) (s : EditorState α) :
    isVisible (hide f s).1 = false := by
  unfold hide
  rw [isVisible_leaveEditMode]
  exact contains_classListRemove_self _ _

theorem hide_eq_of_invisible_not_edit (f : α → α) (t : EditorState α)
    (h1 : isVisible t = false) (h2 : isInEditMode t = false) : hide f t = (t, []) := by
  unfold hide
  rw [classListRemove_of_not_contains h1]
  exact leaveEditMode_of_not_edit f t h2

theorem hide_effects_of_not_edit (f : α → α) (t : EditorState α)
    (h : isInEditMode t = false) : (hide f t).2 = [] := by
  unfold hide
  rw [leaveEditMode_of_not_edit]
  rw [isInEditMode_remove_visible]
  exact h

/-- The synchronous composite `enterEditMode` coincides, on states, with the
split operation: running `enterEditModeSync` and then the `resolveFetch`
continuation immediately. -/
theorem enterEditMode_state_eq_sync_then_resolve (resp : IMenuSettings α × Nat)
    (s : EditorState α) (h : isInEditMode s = false) :
    (enterEditMode resp s).1 = (resolveFetch resp (enterEditModeSync s).1).1 := by
  rw [enterEditMode_eq_of_not_edit resp s h]
  simp [enterEditModeSync, resolveFetch, h]

/-! ### Claim theorems -/

/-- C1: for every call to `enterEditMode()` made while the editor is not in
edit mode, the editor performs the fetch half of the settings round trip: it
awaits `window.api.menuSettings.get()` and
`window.api.menuSettings.getCurrentMenu()` together, stores the retrieved
settings as its `menuSettings`, passes `settings.menus[currentMenu]` to the
preview, and passes `(settings.menus, currentMenu)` to the toolbar. -/
theorem enterEditMode_fetch_round_trip (settings : IMenuSettings α) (cur : Nat)
    (s : EditorState α) (h : isInEditMode s = false) :
    (enterEditMode (settings, cur) s).1.menuSettings = some settings ∧
    Effect.awaitAll [HostFetch.get, HostFetch.getCurrentMenu]
      ∈ (enterEditMode (settings, cur) s).2 ∧
    Effect.previewSetMenu settings.menus[cur]? ∈ (enterEditMode (settings, cur) s).2 ∧
    Effect.toolbarSetMenus settings.menus cur ∈ (enterEditMode (settings, cur) s).2 := by
  rw [enterEditMode_eq_of_not_edit _ _ h]
  refine ⟨rfl, ?_, ?_, ?_⟩ <;> simp

/-- Witness for C1 at a concrete editor state and host response. -/
theorem enterEditMode_fetch_round_trip_witness :
    (enterEditMode ((⟨[⟨1⟩, ⟨2⟩]⟩ : IMenuSettings Nat), 0)
        ⟨["visible"], true, none⟩).1.menuSettings = some ⟨[⟨1⟩, ⟨2⟩]⟩ ∧
    Effect.previewSetMenu (⟨[⟨1⟩, ⟨2⟩]⟩ : IMenuSettings Nat).menus[0]?
      ∈ (enterEditMode ((⟨[⟨1⟩, ⟨2⟩]⟩ : IMenuSettings Nat), 0)
          ⟨["visible"], true, none⟩).2 :=
  ⟨(enterEditMode_fetch_round_trip ⟨[⟨1⟩, ⟨2⟩]⟩ 0 ⟨["visible"], true, none⟩ (by decide)).1,
   (enterEditMode_fetch_round_trip ⟨[⟨1⟩, ⟨2⟩]⟩ 0 ⟨["visible"], true, none⟩ (by decide)).2.2.1⟩

/-- C2: for every call to `leaveEditMode()` made while the editor is in edit
mode and after settings were fetched, the stored settings object — with each
menu's nodes converted by `toINode` — is sent back to the host by a single
`window.api.menuSettings.set` call; the settings sent are exactly the ones
obtained during `enterEditMode`, and no other editor operation performs a
persistence call. -/
theorem leaveEditMode_set_round_trip (f : α → α) (s : EditorState α)
    (ms : IMenuSettings α) (h1 : isInEditMode s = true)
    (h2 : s.menuSettings = some ms) :
    (leaveEditMode f s).2.filter isHostSet = [Effect.hostSet (convertMenus f ms)] ∧
    (∀ (settings : IMenuSettings α) (cur : Nat) (t : EditorState α),
      isInEditMode t = false →
      (leaveEditMode f (enterEditMode (settings, cur) t).1).2.filter isHostSet
        = [Effect.hostSet (convertMenus f settings)]) ∧
    (∀ t : EditorState α, (show' t).2.filter isHostSet = []) ∧
    (∀ (resp : IMenuSettings α × Nat) (t : EditorState α),
      (enterEditMode resp t).2.filter isHostSet = []) := by
  refine ⟨?_, ?_, ?_, ?_⟩
  · rw [leaveEditMode_eq_of_edit_some f s ms h1 h2]
    simp [isHostSet]
  · intro settings cur t ht
    rw [leaveEditMode_eq_of_edit_some f _ settings
      (isInEditMode_enterEditMode (settings, cur) t)
      (enterEditMode_fetch_round_trip settings cur t ht).1]
    simp [isHostSet]
  · intro t
    rfl
  · intro resp t
    unfold enterEditMode
    split <;> simp [isHostSet]

/-- Witness for C2 at a concrete in-edit-mode state holding fetched settings. -/
theorem leaveEditMode_set_round_trip_witness :
    (leaveEditMode (id : Nat → Nat)
        ⟨["edit-mode"], false, some ⟨[⟨3⟩]⟩⟩).2.filter isHostSet
      = [Effect.hostSet (convertMenus id ⟨[⟨3⟩]⟩)] :=
  (leaveEditMode_set_round_trip id ⟨["edit-mode"], false, some ⟨[⟨3⟩]⟩⟩ ⟨[⟨3⟩]⟩
    (by decide) rfl).1

/-- C3: the editor's only protocol state is the boolean edit-mode flag:
`isInEditMode()` returns exactly whether the container's class list contains
`'edit-mode'`; `enterEditMode()` always leaves that flag true and
`leaveEditMode()` always leaves it false. -/
theorem editMode_flag_spec :
    (∀ s : EditorState α, isInEditMode s = s.classes.contains "edit-mode") ∧
    (∀ (resp : IMenuSettings α × Nat) (s : EditorState α),
      isInEditMode (enterEditMode resp s).1 = true) ∧
    (∀ (f : α → α) (s : EditorState α), isInEditMode (leaveEditMode f s).1 = false) :=
  ⟨fun _ => rfl,
   fun resp s => isInEditMode_enterEditMode resp s,
   fun f s => isInEditMode_leaveEditMode f s⟩

/-- C4 counterexample: the constructor does not append exactly four child
containers to the parent container — it appends five (background, preview,
properties, sidebar, toolbar). -/
theorem constructor_children_not_four : ¬ (constructorChildren.length = 4) := by
  decide

/-- C4 amended: the constructor wires together five UI sub-panels: the parent
container owns exactly five child components — background, preview,
properties, sidebar, toolbar — each opaque and each appended exactly once,
in that order, during construction. -/
theorem constructor_children_five :
    constructorChildren =
      [EditorChild.background, EditorChild.preview, EditorChild.properties,
       EditorChild.sidebar, EditorChild.toolbar] ∧
    constructorChildren.length = 5 ∧
    constructorChildren.Nodup :=
  ⟨rfl, rfl, by decide⟩

/-- C5: `show()` makes the editor visible by adding the `'visible'` class and
`hide()` makes it invisible by removing it; both are idempotent (a second
`show()` or `hide()` changes neither the state nor the effect trace), and
`hide()` after `show()` restores the hidden state. -/
theorem visibility_toggle_spec :
    (∀ s : EditorState α, isVisible (show' s).1 = true) ∧
    (∀ (f : α → α) (s : EditorState α), isVisible (hide f s).1 = false) ∧
    (∀ s : EditorState α, show' (show' s).1 = ((show' s).1, [])) ∧
    (∀ (f : α → α) (s : EditorState α), hide f (hide f s).1 = ((hide f s).1, [])) ∧
    (∀ (f : α → α) (s : EditorState α), isVisible (hide f (show' s).1).1 = false) := by
  refine ⟨?_, ?_, ?_, ?_, ?_⟩
  · intro s
    exact contains_classListAdd_self _ _
  · intro f s
    exact isVisible_hide f s
  · intro s
    simp [show', classListAdd_idem]
  · intro f s
    exact hide_eq_of_invisible_not_edit f _ (isVisible_hide f s) (isInEditMode_hide f s)
  · intro f s
    exact isVisible_hide f _

/-- C6: the only point where asynchronous results are coordinated is the
single `Promise.all` in `enterEditMode()`, which awaits exactly the two host
calls `window.api.menuSettings.get()` and
`window.api.menuSettings.getCurrentMenu()`; no other operation awaits or
combines promises. -/
theorem await_coordination_spec :
    (∀ (settings : IMenuSettings α) (cur : Nat) (s : EditorState α),
      isInEditMode s = false →
      (enterEditMode (settings, cur) s).2.filter isAwait =
        [Effect.awaitAll [HostFetch.get, HostFetch.getCurrentMenu]]) ∧
    (∀ (resp : IMenuSettings α × Nat) (s : EditorState α),
      isInEditMode s = true → (enterEditMode resp s).2 = []) ∧
    (∀ s : EditorState α, (show' s).2.filter isAwait = []) ∧
    (∀ (f : α → α) (s : EditorState α), (leaveEditMode f s).2.filter isAwait = []) ∧
    (∀ (f : α → α) (s : EditorState α), (hide f s).2.filter isAwait = []) := by
  have hleave : ∀ (f : α → α) (s : EditorState α),
      (leaveEditMode f s).2.filter isAwait = [] := by
    intro f s
    unfold leaveEditMode
    split
    · split <;> simp [isAwait]
    · rfl
  refine ⟨?_, ?_, ?_, hleave, ?_⟩
  · intro settings cur s h
    rw [enterEditMode_eq_of_not_edit _ _ h]
    simp [isAwait]
  · intro resp s h
    rw [enterEditMode_eq_of_edit _ _ h]
  · intro s
    rfl
  · intro f s
    exact hleave f _

/-- Witness for C6: each conjunct instantiated at a concrete state. -/
theorem await_coordination_spec_witness :
    (enterEditMode ((⟨[⟨0⟩]⟩ : IMenuSettings Nat), 0) ⟨[], true, none⟩).2.filter isAwait
      = [Effect.awaitAll [HostFetch.get, HostFetch.getCurrentMenu]] ∧
    (enterEditMode ((⟨[⟨0⟩]⟩ : IMenuSettings Nat), 0) ⟨["edit-mode"], true, none⟩).2 = [] ∧
    (leaveEditMode (id : Nat → Nat) ⟨["edit-mode"], false, none⟩).2.filter isAwait = [] ∧
    (hide (id : Nat → Nat) ⟨["visible", "edit-mode"], false, none⟩).2.filter isAwait = [] :=
  ⟨await_coordination_spec.1 ⟨[⟨0⟩]⟩ 0 ⟨[], true, none⟩ (by decide),
   await_coordination_spec.2.1 (⟨[⟨0⟩]⟩, 0) ⟨["edit-mode"], true, none⟩ (by decide),
   await_coordination_spec.2.2.2.1 id ⟨["edit-mode"], false, none⟩,
   await_coordination_spec.2.2.2.2 id ⟨["visible", "edit-mode"], false, none⟩⟩

/-- C7: `enterEditMode()` is a no-op (state unchanged, no effect performed,
no event emitted) when the editor is already in edit mode, and
`leaveEditMode()` is a no-op when it is not; on an actual transition each
operation emits its event exactly once. -/
theorem mode_guard_noop_spec :
    (∀ (resp : IMenuSettings α × Nat) (s : EditorState α),
      isInEditMode s = true → enterEditMode resp s = (s, [])) ∧
    (∀ (f : α → α) (s : EditorState α),
      isInEditMode s = false → leaveEditMode f s = (s, [])) ∧
    (∀ (resp : IMenuSettings α × Nat) (s : EditorState α),
      isInEditMode s = false →
      (enterEditMode resp s).2.filter isEmitEnter = [Effect.emitEnterEditMode]) ∧
    (∀ (f : α → α) (s : EditorState α),
      isInEditMode s = true →
      (leaveEditMode f s).2.filter isEmitLeave = [Effect.emitLeaveEditMode]) := by
  refine ⟨?_, ?_, ?_, ?_⟩
  · intro resp s h
    exact enterEditMode_eq_of_edit resp s h
  · intro f s h
    exact leaveEditMode_of_not_edit f s h
  · intro resp s h
    rw [enterEditMode_eq_of_not_edit resp s h]
    simp [isEmitEnter]
  · intro f s h
    cases hms : s.menuSettings with
    | some ms =>
        rw [leaveEditMode_eq_of_edit_some f s ms h hms]
        simp [isEmitLeave, isHostSet]
    | none =>
        rw [leaveEditMode_eq_of_edit_none f s h hms]
        simp [isEmitLeave]

/-- Witness for C7: each conjunct instantiated at a concrete state. -/
theorem mode_guard_noop_spec_witness :
    enterEditMode ((⟨[⟨0⟩]⟩ : IMenuSettings Nat), 0) ⟨["edit-mode"], false, none⟩
      = (⟨["edit-mode"], false, none⟩, []) ∧
    leaveEditMode (id : Nat → Nat) ⟨["visible"], true, none⟩
      = (⟨["visible"], true, none⟩, []) ∧
    (enterEditMode ((⟨[⟨0⟩]⟩ : IMenuSettings Nat), 0) ⟨[], true, none⟩).2.filter isEmitEnter
      = [Effect.emitEnterEditMode] ∧
    (leaveEditMode (id : Nat → Nat)
        ⟨["edit-mode"], false, some ⟨[⟨7⟩]⟩⟩).2.filter isEmitLeave
      = [Effect.emitLeaveEditMode] :=
  ⟨mode_guard_noop_spec.1 (⟨[⟨0⟩]⟩, 0) ⟨["edit-mode"], false, none⟩ (by decide),
   mode_guard_noop_spec.2.1 id ⟨["visible"], true, none⟩ (by decide),
   mode_guard_noop_spec.2.2.1 (⟨[⟨0⟩]⟩, 0) ⟨[], true, none⟩ (by decide),
   mode_guard_noop_spec.2.2.2 id ⟨["edit-mode"], false, some ⟨[⟨7⟩]⟩⟩ (by decide)⟩

/-- C8 counterexample: a complete program run refuting "after hide() returns
... any fetched menu settings have been sent back to the host".  The run is:
`enterEditMode()` from a fresh editor, `hide()` before the fetch resolves,
then the fetch continuation runs (storing the settings while the editor is no
longer in edit mode), then `hide()` again.  The final configuration is
reachable, its cumulative effect log contains no
`window.api.menuSettings.set` call, yet the editor still holds fetched
settings after the last `hide()` returned: the early return of
`leaveEditMode` skipped the send, and the final `hide()` call itself
performed no `set` either. -/
theorem hide_unflushed_settings_counterexample :
    AsyncReachable (id : Nat → Nat)
      ⟨⟨[], false, some ⟨[⟨5⟩]⟩⟩, 0,
       [Effect.awaitAll [HostFetch.get, HostFetch.getCurrentMenu],
        Effect.emitEnterEditMode, Effect.emitLeaveEditMode,
        Effect.previewSetMenu (some ⟨5⟩), Effect.toolbarSetMenus [⟨5⟩] 0]⟩ ∧
    ([Effect.awaitAll [HostFetch.get, HostFetch.getCurrentMenu],
      Effect.emitEnterEditMode, Effect.emitLeaveEditMode,
      Effect.previewSetMenu (some ⟨5⟩),
      Effect.toolbarSetMenus ([⟨5⟩] : List (IMenu Nat)) 0].filter isHostSet = []) ∧
    (⟨[], false, some ⟨[⟨5⟩]⟩⟩ : EditorState Nat).menuSettings = some ⟨[⟨5⟩]⟩ ∧
    (hide (id : Nat → Nat) ⟨[], false, some ⟨[⟨5⟩]⟩⟩).2.filter isHostSet = [] ∧
    (hide (id : Nat → Nat) ⟨[], false, some ⟨[⟨5⟩]⟩⟩).1.menuSettings = some ⟨[⟨5⟩]⟩ := by
  refine ⟨?_, by decide, rfl, by decide, by decide⟩
  have a1 : AsyncReachable (id : Nat → Nat)
      ⟨⟨["edit-mode"], false, none⟩, 1,
       [Effect.awaitAll [HostFetch.get, HostFetch.getCurrentMenu],
        Effect.emitEnterEditMode]⟩ :=
    AsyncReachable.doEnter (AsyncReachable.init [] true)
  have a2 : AsyncReachable (id : Nat → Nat)
      ⟨⟨[], false, none⟩, 1,
       [Effect.awaitAll [HostFetch.get, HostFetch.getCurrentMenu],
        Effect.emitEnterEditMode, Effect.emitLeaveEditMode]⟩ :=
    AsyncReachable.doHide a1
  have a3 : AsyncReachable (id : Nat → Nat)
      ⟨⟨[], false, some ⟨[⟨5⟩]⟩⟩, 0,
       [Effect.awaitAll [HostFetch.get, HostFetch.getCurrentMenu],
        Effect.emitEnterEditMode, Effect.emitLeaveEditMode,
        Effect.previewSetMenu (some ⟨5⟩), Effect.toolbarSetMenus [⟨5⟩] 0]⟩ :=
    AsyncReachable.doResolve (⟨[⟨5⟩]⟩, 0) a2
  exact AsyncReachable.doHide a3

/-- C8 amended: `hide()` always leaves edit mode: for every editor state,
after `hide()` returns, `isInEditMode()` is false and the container carries
neither the `'visible'` nor the `'edit-mode'` class; menu settings whose
fetch resolved while the editor was still in edit mode are sent back to the
host during the call, but settings whose fetch resolved only after edit mode
was left are not sent: they remain stored and the call performs no `set`. -/
theorem hide_leaves_edit_mode_amended (f : α → α) (s : EditorState α) :
    isInEditMode (hide f s).1 = false ∧
    (hide f s).1.classes.contains "edit-mode" = false ∧
    (hide f s).1.classes.contains "visible" = false ∧
    (∀ ms : IMenuSettings α, s.menuSettings = some ms → isInEditMode s = true →
      Effect.hostSet (convertMenus f ms) ∈ (hide f s).2) ∧
    (∀ ms : IMenuSettings α, s.menuSettings = some ms → isInEditMode s = false →
      (hide f s).2.filter isHostSet = [] ∧ (hide f s).1.menuSettings = some ms) := by
  refine ⟨isInEditMode_hide f s, isInEditMode_hide f s, isVisible_hide f s, ?_, ?_⟩
  · intro ms hms he
    have he1 : isInEditMode { s with classes := classListRemove s.classes "visible" }
        = true := by
      rw [isInEditMode_remove_visible]
      exact he
    unfold hide
    rw [leaveEditMode_eq_of_edit_some f _ ms he1 hms]
    simp
  · intro ms hms he
    have he1 : isInEditMode { s with classes := classListRemove s.classes "visible" }
        = false := by
      rw [isInEditMode_remove_visible]
      exact he
    unfold hide
    rw [leaveEditMode_of_not_edit f _ he1]
    exact ⟨rfl, hms⟩

/-- Witness for C8 amended: both the flushing and the non-flushing branch at
concrete states holding fetched settings. -/
theorem hide_leaves_edit_mode_amended_witness :
    Effect.hostSet (convertMenus (id : Nat → Nat) ⟨[⟨6⟩]⟩)
      ∈ (hide id (⟨["visible", "edit-mode"], false, some ⟨[⟨6⟩]⟩⟩ : EditorState Nat)).2 ∧
    (hide (id : Nat → Nat)
      (⟨["visible"], false, some ⟨[⟨6⟩]⟩⟩ : EditorState Nat)).2.filter isHostSet = [] ∧
    (hide (id : Nat → Nat)
      (⟨["visible"], false, some ⟨[⟨6⟩]⟩⟩ : EditorState Nat)).1.menuSettings
        = some ⟨[⟨6⟩]⟩ :=
  ⟨(hide_leaves_edit_mode_amended id
      ⟨["visible", "edit-mode"], false, some ⟨[⟨6⟩]⟩⟩).2.2.2.1 ⟨[⟨6⟩]⟩ rfl (by decide),
   ((hide_leaves_edit_mode_amended id
      ⟨["visible"], false, some ⟨[⟨6⟩]⟩⟩).2.2.2.2 ⟨[⟨6⟩]⟩ rfl (by decide)).1,
   ((hide_leaves_edit_mode_amended id
      ⟨["visible"], false, some ⟨[⟨6⟩]⟩⟩).2.2.2.2 ⟨[⟨6⟩]⟩ rfl (by decide)).2⟩

/-- C9: `window.api.menuSettings.set` is never called with null settings and
at most once per edit session: every `set` effect of `leaveEditMode()`
carries a settings object obtained from the non-null `menuSettings` field,
at most one `set` is performed, `menuSettings` is reset to null by the time
the in-edit-mode call returns, and a second `leaveEditMode()` or a `hide()`
following it performs no further `set` call. -/
theorem hostSet_once_per_session (f : α → α) (s : EditorState α) :
    (∀ v : IMenuSettings α, Effect.hostSet v ∈ (leaveEditMode f s).2 →
      ∃ ms : IMenuSettings α, s.menuSettings = some ms ∧ v = convertMenus f ms) ∧
    ((leaveEditMode f s).2.filter isHostSet).length ≤ 1 ∧
    (isInEditMode s = true → (leaveEditMode f s).1.menuSettings = none) ∧
    (leaveEditMode f (leaveEditMode f s).1).2.filter isHostSet = [] ∧
    (hide f (leaveEditMode f s).1).2.filter isHostSet = [] := by
  refine ⟨?_, ?_, ?_, ?_, ?_⟩
  · intro v hv
    by_cases he : isInEditMode s = true
    · cases hms : s.menuSettings with
      | some ms =>
          rw [leaveEditMode_eq_of_edit_some f s ms he hms] at hv
          simp at hv
          exact ⟨ms, rfl, hv⟩
      | none =>
          rw [leaveEditMode_eq_of_edit_none f s he hms] at hv
          simp at hv
    · rw [leaveEditMode_of_not_edit f s (by simpa using he)] at hv
      simp at hv
  · by_cases he : isInEditMode s = true
    · cases hms : s.menuSettings with
      | some ms =>
          rw [leaveEditMode_eq_of_edit_some f s ms he hms]
          simp [isHostSet]
      | none =>
          rw [leaveEditMode_eq_of_edit_none f s he hms]
          simp [isHostSet]
    · rw [leaveEditMode_of_not_edit f s (by simpa using he)]
      simp
  · intro he
    rw [leaveEditMode_menuSettings, if_pos he]
  · rw [leaveEditMode_of_not_edit f _ (isInEditMode_leaveEditMode f s)]
    rfl
  · rw [hide_effects_of_not_edit f _ (isInEditMode_leaveEditMode f s)]
    rfl

/-- Witness for C9 at a concrete in-edit-mode state holding settings. -/
theorem hostSet_once_per_session_witness :
    (∃ ms : IMenuSettings Nat,
      (⟨["edit-mode"], false, some ⟨[⟨9⟩]⟩⟩ : EditorState Nat).menuSettings = some ms ∧
      convertMenus (id : Nat → Nat) ⟨[⟨9⟩]⟩ = convertMenus id ms) ∧
    (leaveEditMode (id : Nat → Nat)
      ⟨["edit-mode"], false, some ⟨[⟨9⟩]⟩⟩).1.menuSettings = none :=
  ⟨(hostSet_once_per_session id ⟨["edit-mode"], false, some ⟨[⟨9⟩]⟩⟩).1
      (convertMenus id ⟨[⟨9⟩]⟩) (by decide),
   (hostSet_once_per_session id ⟨["edit-mode"], false, some ⟨[⟨9⟩]⟩⟩).2.2.1 (by decide)⟩

end Kando
